import Mathlib

/-!
Verification development for the supplied `langchain` repository material:
a project README and three example notebooks
(`docs/getting_started/agents.ipynb`, `docs/examples/agents/mrkl.ipynb`,
`docs/examples/prompts/llm_functionality.ipynb`).

The supplied files are documentation artifacts: Markdown narration, sample
transcripts, and example code cells that import and exercise the library.
We embed the supplied files at statement granularity (each Python statement
of each cell classified into a small statement syntax), and we embed — or,
where the library implementation is not among the supplied files, model
from the specification — the concepts the notebooks exercise: the `Tool`
record, the agent decision loop, the LLM `generate` call, and the LLM
response cache with swappable backends.
-/

namespace LangChainDocs

/-! ## Statement-level embedding of the supplied files

Each Python statement occurring in a cell of the supplied material is
classified into one of the following shapes.  `imports m ns` is a
`from m import ns` or `import m` statement; `assign t h` is an assignment
whose right-hand side is a call of (or construction headed by) `h`;
`exprCall h` is an expression statement calling `h`; `classDef n fs` is a
`class n` definition with field names `fs`; `funcDef n` is a `def n`
definition; `tryExcept` is a try/except block and `raiseStmt` a raise
statement (error handling).  The last three constructors never occur in
the supplied files; having them in the syntax is what makes their absence
a checkable fact rather than a modelling artifact. -/
inductive PyStmt where
  | imports (module : String) (names : List String)
  | assign (target : String) (rhsHead : String)
  | exprCall (head : String)
  | classDef (name : String) (fields : List String)
  | funcDef (name : String)
  | tryExcept
  | raiseStmt
  deriving DecidableEq, Repr

/-- A notebook cell is either Markdown narration (whose fenced code blocks,
when present, are display-only) or an executable code cell. -/
inductive CellKind where
  | markdown
  | code
  deriving DecidableEq, Repr

/-- A cell: its kind and the Python statements it holds.  For a `code`
cell these are the statements the notebook executes; for a `markdown`
cell these are the statements displayed inside fenced code blocks
(empty when the cell is pure prose). -/
structure Cell where
  kind : CellKind
  stmts : List PyStmt
  deriving DecidableEq, Repr

/-- A supplied file: its path and its cells.  The README is modelled as a
single Markdown cell with no embedded Python statements (it contains
none). -/
structure SuppliedFile where
  path : String
  cells : List Cell
  deriving DecidableEq, Repr

/-- Shorthand for a pure-prose Markdown cell. -/
def mdCell : Cell := Cell.mk CellKind.markdown []

/-- Shorthand for a code cell with the given statements. -/
def codeCell (ss : List PyStmt) : Cell := Cell.mk CellKind.code ss

/-- `docs/getting_started/agents.ipynb`, cell by cell. -/
def agentsNotebook : SuppliedFile :=
  SuppliedFile.mk "docs/getting_started/agents.ipynb"
    [ mdCell  -- "# Agents" introduction
    , mdCell  -- "## Concepts": Tool / LLM / Agent described in prose
    , -- "## Tools": the Tool interface displayed in a fenced code block
      Cell.mk CellKind.markdown
        [PyStmt.classDef "Tool" ["name", "func", "description"]]
    , mdCell  -- "## Loading an agent"
    , codeCell
        [ PyStmt.imports "langchain.agents" ["initialize_agent", "Tool"]
        , PyStmt.imports "langchain.llms" ["OpenAI"] ]
    , codeCell
        [ PyStmt.imports "langchain" ["LLMMathChain", "SerpAPIWrapper"]
        , PyStmt.assign "llm" "OpenAI"
        , PyStmt.assign "search" "SerpAPIWrapper"
        , PyStmt.assign "llm_math_chain" "LLMMathChain"
        , PyStmt.assign "tools" "list of Tool" ]
    , codeCell
        [ PyStmt.assign "llm" "OpenAI"
        , PyStmt.assign "agent" "initialize_agent" ]
    , codeCell [PyStmt.exprCall "agent.run"]
    , mdCell  -- "## Intermediate Steps"
    , codeCell
        [ PyStmt.assign "llm" "OpenAI"
        , PyStmt.assign "agent" "initialize_agent" ]
    , codeCell [PyStmt.assign "response" "agent"]
    , codeCell [PyStmt.exprCall "print"]
    , codeCell
        [ PyStmt.imports "json" []
        , PyStmt.exprCall "print" ]
    , mdCell  -- "## Predefined Tools"
    , codeCell
        [ PyStmt.imports "langchain.agents" ["load_tools"]
        , PyStmt.assign "tools" "load_tools" ]
    , codeCell [PyStmt.assign "agent" "initialize_agent"]
    , codeCell [PyStmt.exprCall "agent.run"]
    , codeCell [] ]

/-- `docs/examples/agents/mrkl.ipynb`, cell by cell. -/
def mrklNotebook : SuppliedFile :=
  SuppliedFile.mk "docs/examples/agents/mrkl.ipynb"
    [ mdCell  -- "# MRKL"
    , mdCell  -- Chinook database setup instructions
    , codeCell
        [ PyStmt.imports "langchain"
            ["LLMMathChain", "OpenAI", "SerpAPIWrapper", "SQLDatabase",
             "SQLDatabaseChain"]
        , PyStmt.imports "langchain.agents" ["initialize_agent", "Tool"] ]
    , codeCell
        [ PyStmt.assign "llm" "OpenAI"
        , PyStmt.assign "search" "SerpAPIWrapper"
        , PyStmt.assign "llm_math_chain" "LLMMathChain"
        , PyStmt.assign "db" "SQLDatabase.from_uri"
        , PyStmt.assign "db_chain" "SQLDatabaseChain"
        , PyStmt.assign "tools" "list of Tool" ]
    , codeCell [PyStmt.assign "mrkl" "initialize_agent"]
    , codeCell [PyStmt.exprCall "mrkl.run"]
    , codeCell [PyStmt.exprCall "mrkl.run"]
    , codeCell [] ]

/-- `docs/examples/prompts/llm_functionality.ipynb`, cell by cell. -/
def llmFunctionalityNotebook : SuppliedFile :=
  SuppliedFile.mk "docs/examples/prompts/llm_functionality.ipynb"
    [ mdCell  -- "# LLM Functionality"
    , codeCell [PyStmt.imports "langchain.llms" ["OpenAI"]]
    , codeCell [PyStmt.assign "llm" "OpenAI"]
    , mdCell  -- "Generate Text"
    , codeCell [PyStmt.exprCall "llm"]
    , mdCell  -- "Generate"
    , codeCell [PyStmt.assign "llm_result" "llm.generate"]
    , codeCell [PyStmt.exprCall "len"]
    , codeCell [PyStmt.exprCall "llm_result.generations"]
    , codeCell [PyStmt.exprCall "llm_result.generations"]
    , codeCell [PyStmt.exprCall "llm_result.llm_output"]
    , mdCell  -- "Number of Tokens"
    , codeCell [PyStmt.exprCall "llm.get_num_tokens"]
    , mdCell  -- "### Caching"
    , codeCell
        [ PyStmt.imports "langchain" []
        , PyStmt.imports "langchain.cache" ["InMemoryCache"]
        , PyStmt.assign "langchain.llm_cache" "InMemoryCache" ]
    , codeCell [PyStmt.assign "llm" "OpenAI"]
    , codeCell [PyStmt.exprCall "llm"]
    , codeCell [PyStmt.exprCall "llm"]
    , codeCell
        [ PyStmt.imports "langchain.cache" ["SQLiteCache"]
        , PyStmt.assign "langchain.llm_cache" "SQLiteCache" ]
    , codeCell [PyStmt.exprCall "llm"]
    , codeCell [PyStmt.exprCall "llm"]
    , codeCell
        [ PyStmt.imports "langchain.cache" ["SQLAlchemyCache"]
        , PyStmt.imports "sqlalchemy" ["create_engine"]
        , PyStmt.assign "engine" "create_engine"
        , PyStmt.assign "langchain.llm_cache" "SQLAlchemyCache" ] ]

/-- The project README (the unnamed supplied file): Markdown only, with no
Python code blocks. -/
def readmeFile : SuppliedFile := SuppliedFile.mk "README.md" [mdCell]

/-- The complete supplied repository content. -/
def suppliedFiles : List SuppliedFile :=
  [readmeFile, agentsNotebook, mrklNotebook, llmFunctionalityNotebook]

/-- A statement defines implementation source when it is a class or
function definition. -/
def PyStmt.definesImpl : PyStmt → Bool
  | PyStmt.classDef _ _ => true
  | PyStmt.funcDef _ => true
  | _ => false

/-- A statement is error-handling logic when it is a try/except block or a
raise statement. -/
def PyStmt.isErrorHandling : PyStmt → Bool
  | PyStmt.tryExcept => true
  | PyStmt.raiseStmt => true
  | _ => false

/-- A statement is usage narration when it is an import, an assignment, or
an expression call: it exercises a library rather than defining one. -/
def PyStmt.isUsage : PyStmt → Bool
  | PyStmt.imports _ _ => true
  | PyStmt.assign _ _ => true
  | PyStmt.exprCall _ => true
  | _ => false

/-- A cell is executable when it is a code cell. -/
def Cell.isExecutable (c : Cell) : Bool := c.kind == CellKind.code

/-! ## The Tool interface

Embedded from the definition displayed in `docs/getting_started/agents.ipynb`
("## Tools"):

a Tool is a NamedTuple with a required `name : str`, a required
`func : Callable[[str], str]`, and an optional `description : Optional[str]`
defaulting to `None`. -/
structure Tool where
  name : String
  func : String → String
  description : Option String := none

/-! ## The agent decision loop

Modelled from the spec: the agent decision-loop implementation is not among
the supplied files.  The glossary describes an agent as "a component that
repeatedly selects and invokes tools based on model output until a final
answer is produced", and the `agents.ipynb` transcripts show each model
output as either an action (a tool name plus a tool input, with the
reasoning text as `log`) or a final answer; each tool invocation yields an
observation that is appended to the running history fed back to the
model. -/

/-- An agent action, as displayed in the `agents.ipynb` transcript:
`AgentAction(tool=..., tool_input=..., log=...)`. -/
structure AgentAction where
  tool : String
  tool_input : String
  log : String
  deriving DecidableEq, Repr

/-- One intermediate step: the action taken and the observation returned
by the invoked tool. -/
abbrev Step : Type := AgentAction × String

/-- A model output: either take an action or finish with a final answer
(the reasoning text preceding it kept as `log`). -/
inductive AgentDecision where
  | act (a : AgentAction)
  | finish (log : String) (answer : String)

/-- The language model powering the agent, abstracted as a function from
the user input and the steps taken so far to the next decision. -/
def AgentModel : Type := String → List Step → AgentDecision

/-- Look up a tool by name in the agent's tool list. -/
def lookupTool : List Tool → String → Option (String → String)
  | [], _ => none
  | t :: ts, n => if t.name = n then some t.func else lookupTool ts n

/-- Run the agent loop: ask the model for a decision; on an action, invoke
the named tool, append the (action, observation) step and continue; on a
final answer, stop and return the accumulated steps and the answer.
`fuel` bounds the number of model consultations; `none` means the loop
did not produce a final answer within the bound (or named an unknown
tool). -/
def runAgent (model : AgentModel) (tools : List Tool) (input : String) :
    Nat → List Step → Option (List Step × String)
  | 0, _ => none
  | Nat.succ fuel, steps =>
    match model input steps with
    | AgentDecision.finish _ ans => some (steps, ans)
    | AgentDecision.act a =>
      match lookupTool tools a.tool with
      | none => none
      | some f => runAgent model tools input fuel (steps ++ [(a, f a.tool_input)])

/-- An observable event of an agent run: a tool invocation (with its
observation) or the production of the final answer. -/
inductive AgentEvent where
  | toolInvoked (a : AgentAction) (obs : String)
  | finalAnswer (ans : String)
  deriving DecidableEq, Repr

/-- The event trace of an agent run: each tool invocation in order,
followed by the final answer when one is produced within the fuel
bound. -/
def runAgentTrace (model : AgentModel) (tools : List Tool) (input : String) :
    Nat → List Step → List AgentEvent
  | 0, _ => []
  | Nat.succ fuel, steps =>
    match model input steps with
    | AgentDecision.finish _ ans => [AgentEvent.finalAnswer ans]
    | AgentDecision.act a =>
      match lookupTool tools a.tool with
      | none => []
      | some f =>
        AgentEvent.toolInvoked a (f a.tool_input) ::
          runAgentTrace model tools input fuel (steps ++ [(a, f a.tool_input)])

/-- Holds when no event at all follows a final-answer event in the
trace: in particular no tool is invoked after the final answer. -/
def noEventAfterFinal : List AgentEvent → Bool
  | [] => true
  | AgentEvent.finalAnswer _ :: rest => rest.isEmpty
  | AgentEvent.toolInvoked _ _ :: rest => noEventAfterFinal rest

/-- The last event of a trace, if any. -/
def lastEvent : List AgentEvent → Option AgentEvent
  | [] => none
  | [e] => some e
  | _ :: e :: rest => lastEvent (e :: rest)

/-- The tool invocations of a trace, in order. -/
def toolInvocations : List AgentEvent → List Step
  | [] => []
  | AgentEvent.toolInvoked a obs :: rest => (a, obs) :: toolInvocations rest
  | AgentEvent.finalAnswer _ :: rest => toolInvocations rest

/-- A value of the agent's response mapping: the input or output text, or
the list of intermediate steps. -/
inductive ResponseValue where
  | text (s : String)
  | stepsVal (l : List Step)
  deriving DecidableEq, Repr

/-- Modelled from the spec: calling an initialized agent on an input, as in
`response = agent(...)` of `agents.ipynb`.  The response maps "input" and
"output" to their texts; when the agent was initialized with
`return_intermediate_steps=True` it additionally maps "intermediate_steps"
to the list of (action, observation) steps of the run. -/
def agentCall (returnIntermediateSteps : Bool) (model : AgentModel)
    (tools : List Tool) (input : String) (fuel : Nat) :
    Option (List (String × ResponseValue)) :=
  match runAgent model tools input fuel [] with
  | none => none
  | some (steps, ans) =>
    some (("input", ResponseValue.text input) ::
      ("output", ResponseValue.text ans) ::
      (if returnIntermediateSteps
        then [("intermediate_steps", ResponseValue.stepsVal steps)]
        else []))

/-- Look up a key in a response mapping. -/
def responseLookup : List (String × ResponseValue) → String → Option ResponseValue
  | [], _ => none
  | (k2, v) :: rest, k => if k2 = k then some v else responseLookup rest k

/-! ## The LLM response cache

Modelled from the spec: the caching subsystem implementations are not among
the supplied files.  The glossary describes the cache as "a key-value store
for LLM call results" with swappable backends (in-memory, SQLite,
SQL-engine-backed), installed as `langchain.llm_cache` and consulted on
each individual LLM call.  Each backend below is a key-value store over its
own representation: the in-memory cache a front-inserted association list
(a dictionary), the SQLite cache a table of rows keyed by prompt kept on a
database path, the SQLAlchemy cache a table reached through an engine. -/

/-- First-match lookup in an association list. -/
def assocFind : List (String × String) → String → Option String
  | [], _ => none
  | (k2, v) :: rest, k => if k2 = k then some v else assocFind rest k

/-- The in-memory backend: a dictionary from prompt to response. -/
structure InMemoryCache where
  store : List (String × String)
  deriving DecidableEq, Repr

/-- A row of the SQLite backend's table: a prompt (the key) and the cached
response. -/
structure SQLiteRow where
  prompt : String
  response : String
  deriving DecidableEq, Repr

/-- The SQLite backend: a table of rows kept at a database path, as in
`SQLiteCache(database_path=".langchain.db")`. -/
structure SQLiteCache where
  database_path : String
  rows : List SQLiteRow
  deriving DecidableEq, Repr

/-- The SQL-engine-backed backend: a table reached through a SQLAlchemy
engine, as in `SQLAlchemyCache(engine)`. -/
structure SQLAlchemyCache where
  engine : String
  table : String → Option String

/-- Scan a row table for the first row keyed by `k`. -/
def rowFind : List SQLiteRow → String → Option String
  | [], _ => none
  | r :: rest, k => if r.prompt = k then some r.response else rowFind rest k

/-- Delete every row keyed by `k` from a row table. -/
def rowDelete (rows : List SQLiteRow) (k : String) : List SQLiteRow :=
  rows.filter (fun r => r.prompt ≠ k)

/-- The installed `langchain.llm_cache`: any one of the three backends. -/
inductive LLMCache where
  | inMemory (c : InMemoryCache)
  | sqlite (c : SQLiteCache)
  | sqlAlchemy (c : SQLAlchemyCache)

/-- Key-value lookup, per backend. -/
def LLMCache.lookup : LLMCache → String → Option String
  | LLMCache.inMemory c, k => assocFind c.store k
  | LLMCache.sqlite c, k => rowFind c.rows k
  | LLMCache.sqlAlchemy c, k => c.table k

/-- Key-value update, per backend: the dictionary front-inserts, the SQLite
table upserts (deletes any row with the key, then appends the new row), the
SQL table overrides pointwise. -/
def LLMCache.update : LLMCache → String → String → LLMCache
  | LLMCache.inMemory c, k, v =>
    LLMCache.inMemory (InMemoryCache.mk ((k, v) :: c.store))
  | LLMCache.sqlite c, k, v =>
    LLMCache.sqlite
      (SQLiteCache.mk c.database_path (rowDelete c.rows k ++ [SQLiteRow.mk k v]))
  | LLMCache.sqlAlchemy c, k, v =>
    LLMCache.sqlAlchemy
      (SQLAlchemyCache.mk c.engine
        (fun k2 => if k2 = k then some v else c.table k2))

/-- The key-value store a backend realizes: its observable content. -/
def LLMCache.toMap (c : LLMCache) : String → Option String :=
  fun k => c.lookup k

/-- The state of the underlying model provider: the text the provider would
return on its `i`-th call for a given prompt (successive provider calls may
answer the same prompt differently), and how many provider calls have been
made. -/
structure LLMState where
  model : Nat → String → String
  calls : Nat

/-- Modelled from the spec: one LLM call (`llm("...")`) with a cache
installed.  On a cache hit the cached text is returned and no provider
call is made; on a miss the provider is called, the result is stored in
the cache, and the provider call count advances. -/
def llmCall (cache : LLMCache) (st : LLMState) (prompt : String) :
    String × LLMCache × LLMState :=
  match cache.lookup prompt with
  | some r => (r, cache, st)
  | none =>
    let r := st.model st.calls prompt
    (r, cache.update prompt r, LLMState.mk st.model (st.calls + 1))

/-- A sequence of LLM calls, threading the cache and provider state. -/
def llmCalls (cache : LLMCache) (st : LLMState) :
    List String → List String × LLMCache × LLMState
  | [] => ([], cache, st)
  | p :: ps =>
    let r := llmCall cache st p
    let rest := llmCalls r.2.1 r.2.2 ps
    (r.1 :: rest.1, rest.2.1, rest.2.2)

/-! ## LLM generate

Modelled from the spec: the LLM client wrappers are not among the supplied
files.  `llm_functionality.ipynb` calls `llm.generate` on a list of prompts
and reads back `llm_result.generations` — one entry per prompt, each entry
a list of the top responses for that prompt (the LLM was constructed with
`n=2`, and each shown entry holds two `Generation` values) — plus
provider-specific `llm_output` information. -/

/-- A single generated completion, as displayed: `Generation(text=...)`. -/
structure Generation where
  text : String
  deriving DecidableEq, Repr

/-- The result of `llm.generate`: the per-prompt generations and the
provider-specific output information. -/
structure LLMResult where
  generations : List (List Generation)
  llm_output : Option String
  deriving DecidableEq, Repr

/-- The LLM wrapper: its model name, the configured number `n` of top
responses per prompt, and the provider completion function (prompt and
choice index to text). -/
structure LLM where
  model_name : String
  n : Nat
  complete : String → Nat → String

/-- The configured number of top responses for one prompt. -/
def LLM.topResponses (llm : LLM) (prompt : String) : List Generation :=
  (List.range llm.n).map (fun i => Generation.mk (llm.complete prompt i))

/-- `llm.generate`: one generations entry per input prompt, in input
order. -/
def LLM.generate (llm : LLM) (prompts : List String) : LLMResult :=
  LLMResult.mk (prompts.map llm.topResponses) none

/-! ## Concrete example objects, used by the witness theorems -/

/-- A concrete search tool, as in the notebooks' `Tool(name="Search", ...)`. -/
def exampleTool : Tool := Tool.mk "Search" (fun q => String.append "result for " q) none

/-- A concrete agent model: search once, then finish. -/
def exampleModel : AgentModel := fun _ steps =>
  if steps.length = 0 then
    AgentDecision.act (AgentAction.mk "Search" "Harry Styles age" "I need to find the age")
  else
    AgentDecision.finish "I now know the final answer" "28 years"

/-- The steps the example agent run takes. -/
def exampleSteps : List Step :=
  [(AgentAction.mk "Search" "Harry Styles age" "I need to find the age",
    "result for Harry Styles age")]

/-- A freshly installed in-memory cache. -/
def emptyInMemory : LLMCache := LLMCache.inMemory (InMemoryCache.mk [])

/-- A freshly installed SQLite cache. -/
def emptySQLite : LLMCache := LLMCache.sqlite (SQLiteCache.mk ".langchain.db" [])

/-- A concrete provider state whose answers vary with the call index. -/
def exampleState : LLMState :=
  LLMState.mk (fun i p => String.append p (Nat.repr i)) 0

/-- A concrete LLM wrapper configured with `n = 2`. -/
def exampleLLM : LLM := LLM.mk "text-ada-001" 2 (fun p i => String.append p (Nat.repr i))

/-! ## Cache lemmas -/

/-- Scanning an appended row table: the first table wins. -/
lemma rowFind_append (l1 l2 : List SQLiteRow) (q : String) :
    rowFind (l1 ++ l2) q =
      match rowFind l1 q with
      | some v => some v
      | none => rowFind l2 q := by
  induction l1 with
  | nil => simp [rowFind]
  | cons r rest ih =>
    by_cases h : r.prompt = q <;> simp [rowFind, h, ih]

/-- Dropping behaviour of `rowDelete` on a matching head row. -/
lemma rowDelete_cons_eq (r : SQLiteRow) (rest : List SQLiteRow) (k : String)
    (h : r.prompt = k) : rowDelete (r :: rest) k = rowDelete rest k := by
  simp [rowDelete, List.filter_cons, h]

/-- Keeping behaviour of `rowDelete` on a non-matching head row. -/
lemma rowDelete_cons_ne (r : SQLiteRow) (rest : List SQLiteRow) (k : String)
    (h : ¬r.prompt = k) : rowDelete (r :: rest) k = r :: rowDelete rest k := by
  simp [rowDelete, List.filter_cons, h]

/-- After deleting every row keyed by `k`, no row keyed by `k` is found. -/
lemma rowFind_delete_self (rows : List SQLiteRow) (k : String) :
    rowFind (rowDelete rows k) k = none := by
  induction rows with
  | nil => rfl
  | cons r rest ih =>
    by_cases h : r.prompt = k
    · rw [rowDelete_cons_eq r rest k h]
      exact ih
    · rw [rowDelete_cons_ne r rest k h]
      simp [rowFind, h, ih]

/-- Deleting rows keyed by `k` does not change lookups of other keys. -/
lemma rowFind_delete_ne (rows : List SQLiteRow) (k q : String) (h : q ≠ k) :
    rowFind (rowDelete rows k) q = rowFind rows q := by
  induction rows with
  | nil => rfl
  | cons r rest ih =>
    by_cases hr : r.prompt = k
    · have hq : r.prompt ≠ q := fun hc => h (hc.symm.trans hr)
      rw [rowDelete_cons_eq r rest k hr]
      simp [rowFind, hq, ih]
    · rw [rowDelete_cons_ne r rest k hr]
      simp [rowFind, ih]

/-- Updating any backend overrides exactly the updated key. -/
lemma lookup_update (c : LLMCache) (k v q : String) :
    (c.update k v).lookup q = if q = k then some v else c.lookup q := by
  cases c with
  | inMemory c =>
    by_cases h : q = k <;>
      simp [LLMCache.update, LLMCache.lookup, assocFind, h, Ne.symm]
  | sqlite c =>
    by_cases h : q = k
    · subst h
      simp [LLMCache.update, LLMCache.lookup, rowFind_append,
        rowFind_delete_self, rowFind]
    · simp [LLMCache.update, LLMCache.lookup, rowFind_append,
        rowFind_delete_ne c.rows k q h, rowFind, h]
      cases rowFind c.rows q <;> simp [Ne.symm h]
  | sqlAlchemy c =>
    simp [LLMCache.update, LLMCache.lookup]

/-- Updating any backend overrides exactly the updated key of the realized
key-value store. -/
lemma toMap_update (c : LLMCache) (k v : String) :
    (c.update k v).toMap = fun q => if q = k then some v else c.toMap q :=
  funext (fun q => lookup_update c k v q)

/-- After `update k v`, looking up `k` returns `v`, on every backend. -/
lemma lookup_update_self (c : LLMCache) (k v : String) :
    (c.update k v).lookup k = some v := by
  simp [lookup_update]

/-- Two backends realizing the same key-value store behave identically on
one LLM call: same returned text, same provider state, and the resulting
caches again realize the same key-value store. -/
lemma llmCall_congr (c1 c2 : LLMCache) (h : c1.toMap = c2.toMap)
    (st : LLMState) (p : String) :
    (llmCall c1 st p).1 = (llmCall c2 st p).1 ∧
    (llmCall c1 st p).2.2 = (llmCall c2 st p).2.2 ∧
    (llmCall c1 st p).2.1.toMap = (llmCall c2 st p).2.1.toMap := by
  have hl : c1.lookup p = c2.lookup p := congrFun h p
  cases hx : c2.lookup p with
  | some r =>
    refine ⟨?_, ?_, ?_⟩ <;> simp [llmCall, hl, hx, h]
  | none =>
    refine ⟨?_, ?_, ?_⟩ <;>
      simp [llmCall, hl, hx, toMap_update, h]

/-! ## Agent loop lemmas -/

/-- The last event of a nonempty trace steps over the head. -/
lemma lastEvent_cons (x : AgentEvent) (l : List AgentEvent) :
    lastEvent (x :: l) = if l.isEmpty then some x else lastEvent l := by
  cases l with
  | nil => rfl
  | cons y t => rfl

/-- Every agent trace invokes no tool (indeed, produces no event at all)
after a final answer, whatever the model, tools, input, fuel and starting
history. -/
lemma noEventAfterFinal_runAgentTrace (model : AgentModel) (tools : List Tool)
    (input : String) :
    ∀ (fuel : Nat) (steps0 : List Step),
      noEventAfterFinal (runAgentTrace model tools input fuel steps0) = true := by
  intro fuel
  induction fuel with
  | zero => intro steps0; rfl
  | succ fuel ih =>
    intro steps0
    cases hd : model input steps0 with
    | finish l a => simp [runAgentTrace, hd, noEventAfterFinal]
    | act a =>
      cases hl : lookupTool tools a.tool with
      | none => simp [runAgentTrace, hd, hl, noEventAfterFinal]
      | some f =>
        simp only [runAgentTrace, hd, hl, noEventAfterFinal]
        exact ih _

/-- The agent run returns an answer exactly when its trace ends with that
answer as its final-answer event. -/
lemma runAgent_lastEvent (model : AgentModel) (tools : List Tool)
    (input : String) :
    ∀ (fuel : Nat) (steps0 : List Step) (ans : String),
      (∃ steps, runAgent model tools input fuel steps0 = some (steps, ans)) ↔
        lastEvent (runAgentTrace model tools input fuel steps0) =
          some (AgentEvent.finalAnswer ans) := by
  intro fuel
  induction fuel with
  | zero =>
    intro steps0 ans
    simp [runAgent, runAgentTrace, lastEvent]
  | succ fuel ih =>
    intro steps0 ans
    cases hd : model input steps0 with
    | finish l a =>
      simp [runAgent, runAgentTrace, hd, lastEvent, eq_comm]
    | act a =>
      cases hl : lookupTool tools a.tool with
      | none => simp [runAgent, runAgentTrace, hd, hl, lastEvent]
      | some f =>
        simp only [runAgent, runAgentTrace, hd, hl]
        rw [lastEvent_cons]
        cases he : (runAgentTrace model tools input fuel
            (steps0 ++ [(a, f a.tool_input)])).isEmpty
        · simp only [Bool.false_eq_true, if_neg, ite_false]
          exact ih _ _
        · have hnil : runAgentTrace model tools input fuel
              (steps0 ++ [(a, f a.tool_input)]) = [] :=
            List.isEmpty_iff.mp he
          rw [if_pos rfl]
          constructor
          · intro hex
            have := (ih (steps0 ++ [(a, f a.tool_input)]) ans).mp hex
            rw [hnil] at this
            exact absurd this (by simp [lastEvent])
          · intro hsome
            exact absurd hsome (by simp)

/-- The steps an agent run returns are exactly the tool invocations of its
trace, in order, appended to the starting history. -/
lemma runAgent_steps_toolInvocations (model : AgentModel) (tools : List Tool)
    (input : String) :
    ∀ (fuel : Nat) (steps0 steps : List Step) (ans : String),
      runAgent model tools input fuel steps0 = some (steps, ans) →
        steps = steps0 ++ toolInvocations (runAgentTrace model tools input fuel steps0) := by
  intro fuel
  induction fuel with
  | zero => intro steps0 steps ans h; exact absurd h (by simp [runAgent])
  | succ fuel ih =>
    intro steps0 steps ans h
    cases hd : model input steps0 with
    | finish l a =>
      simp [runAgent, hd] at h
      simp [runAgentTrace, hd, toolInvocations, h.1.symm]
    | act a =>
      cases hl : lookupTool tools a.tool with
      | none =>
        rw [runAgent, hd] at h
        simp [hl] at h
      | some f =>
        rw [runAgent, hd] at h
        simp only [hl] at h
        have := ih (steps0 ++ [(a, f a.tool_input)]) steps ans h
        simp only [runAgentTrace, hd, hl, toolInvocations]
        rw [this, List.append_assoc]
        rfl

/-! ## Claim theorems -/

/-- C1: the supplied repository content contains no executable
implementation source — every statement executed by a code cell of every
supplied file is usage narration (an import, an assignment, or an
expression call); no code cell defines a class or function, so no agent
loop, tool dispatch engine, or caching backend implementation is
present. -/
theorem no_executable_implementation_source :
    (suppliedFiles.all (fun f => f.cells.all (fun c =>
      !c.isExecutable || c.stmts.all (fun s => s.isUsage)))) = true := by
  decide

/-- C2: a Tool is a named callable taking and returning text: it consists
exactly of a required name, a required function of type
`String → String`, and an optional description which defaults to `none`
when not supplied. -/
theorem tool_is_named_text_callable (n : String) (f : String → String) :
    ({ name := n, func := f } : Tool).name = n ∧
    ({ name := n, func := f } : Tool).func = f ∧
    ({ name := n, func := f } : Tool).description = none ∧
    ∀ t : Tool, t = Tool.mk t.name t.func t.description :=
  ⟨rfl, rfl, rfl, fun t => rfl⟩

/-- C3: for every run, the agent repeatedly invokes tools and stops exactly
when a final answer is produced: the run returns an answer precisely when
its event trace ends with that answer as its final-answer event, and no
event — in particular no tool invocation — ever follows the final answer
in the trace. -/
theorem agent_stops_exactly_at_final_answer (model : AgentModel)
    (tools : List Tool) (input : String) (fuel : Nat) :
    noEventAfterFinal (runAgentTrace model tools input fuel []) = true ∧
    ∀ ans : String,
      (∃ steps, runAgent model tools input fuel [] = some (steps, ans)) ↔
        lastEvent (runAgentTrace model tools input fuel []) =
          some (AgentEvent.finalAnswer ans) :=
  ⟨noEventAfterFinal_runAgentTrace model tools input fuel [],
   fun ans => runAgent_lastEvent model tools input fuel [] ans⟩

/-- Witness for C3 at a concrete model, tool list, input and fuel. -/
theorem agent_stops_exactly_at_final_answer_witness :
    noEventAfterFinal
      (runAgentTrace exampleModel [exampleTool] "How old is Harry Styles" 3 []) = true ∧
    lastEvent (runAgentTrace exampleModel [exampleTool] "How old is Harry Styles" 3 []) =
      some (AgentEvent.finalAnswer "28 years") := by
  obtain ⟨h1, h2⟩ :=
    agent_stops_exactly_at_final_answer exampleModel [exampleTool]
      "How old is Harry Styles" 3
  exact ⟨h1, (h2 "28 years").mp ⟨exampleSteps, by decide⟩⟩

/-- C4: the LLM response cache is a key-value store with swappable
backends: any two installed backends realizing the same key-value store —
in particular freshly installed in-memory, SQLite, and SQL-engine-backed
caches, which all realize the empty store — yield identical texts,
identical provider states, and again-agreeing stores across any sequence
of calls at the LLM call interface. -/
theorem cache_backends_equivalent (c1 c2 : LLMCache) (h : c1.toMap = c2.toMap)
    (st : LLMState) (ps : List String) :
    (llmCalls c1 st ps).1 = (llmCalls c2 st ps).1 ∧
    (llmCalls c1 st ps).2.2 = (llmCalls c2 st ps).2.2 ∧
    (llmCalls c1 st ps).2.1.toMap = (llmCalls c2 st ps).2.1.toMap := by
  induction ps generalizing c1 c2 st with
  | nil => exact ⟨rfl, rfl, h⟩
  | cons p ps ih =>
    obtain ⟨h1, h2, h3⟩ := llmCall_congr c1 c2 h st p
    obtain ⟨i1, i2, i3⟩ :=
      ih (llmCall c1 st p).2.1 (llmCall c2 st p).2.1 h3 (llmCall c2 st p).2.2
    refine ⟨?_, ?_, ?_⟩
    · simp only [llmCalls]
      rw [h1, h2, i1]
    · simp only [llmCalls]
      rw [h2, i2]
    · simp only [llmCalls]
      rw [h2, i3]

/-- Witness for C4: a fresh in-memory cache and a fresh SQLite cache give
character-for-character identical call results. -/
theorem cache_backends_equivalent_witness :
    (llmCalls emptyInMemory exampleState ["Tell me a joke", "Tell me a joke"]).1 =
      (llmCalls emptySQLite exampleState ["Tell me a joke", "Tell me a joke"]).1 :=
  (cache_backends_equivalent emptyInMemory emptySQLite (funext (fun q => rfl))
    exampleState ["Tell me a joke", "Tell me a joke"]).1

/-- C5: with any cache backend enabled, two successive calls of the same
LLM on the same prompt return identical text, and the second call is
answered from the cache: it leaves the cache untouched and advances no
provider call counter. -/
theorem cache_repeated_call_identical (cache : LLMCache) (st : LLMState)
    (p : String) :
    (llmCall (llmCall cache st p).2.1 (llmCall cache st p).2.2 p).1 =
      (llmCall cache st p).1 ∧
    (llmCall (llmCall cache st p).2.1 (llmCall cache st p).2.2 p).2.1 =
      (llmCall cache st p).2.1 ∧
    (llmCall (llmCall cache st p).2.1 (llmCall cache st p).2.2 p).2.2.calls =
      (llmCall cache st p).2.2.calls := by
  cases hx : cache.lookup p with
  | some r => refine ⟨?_, ?_, ?_⟩ <;> simp [llmCall, hx]
  | none => refine ⟨?_, ?_, ?_⟩ <;> simp [llmCall, hx, lookup_update_self]

/-- C6: `llm.generate` returns one generations entry per input prompt, in
input order (the i-th entry is the top responses of the i-th prompt), and
each entry holds exactly the configured number `n` of top responses. -/
theorem generate_one_entry_per_prompt (llm : LLM) (prompts : List String) :
    (llm.generate prompts).generations.length = prompts.length ∧
    (∀ i : Nat, (llm.generate prompts).generations[i]? =
      (prompts[i]?).map llm.topResponses) ∧
    (∀ gs ∈ (llm.generate prompts).generations, gs.length = llm.n) := by
  refine ⟨by simp [LLM.generate], fun i => by simp [LLM.generate], ?_⟩
  intro gs hgs
  simp only [LLM.generate, List.mem_map] at hgs
  obtain ⟨p, hp, hq⟩ := hgs
  rw [← hq]
  simp [LLM.topResponses]

/-- Witness for C6 at a concrete two-prompt call of an LLM configured with
two top responses. -/
theorem generate_one_entry_per_prompt_witness :
    (exampleLLM.generate ["Tell me a joke", "Tell me a poem"]).generations.length = 2 ∧
    (exampleLLM.generate ["Tell me a joke", "Tell me a poem"]).generations[0]? =
      some (exampleLLM.topResponses "Tell me a joke") ∧
    (exampleLLM.topResponses "Tell me a joke").length = 2 := by
  obtain ⟨h1, h2, h3⟩ :=
    generate_one_entry_per_prompt exampleLLM ["Tell me a joke", "Tell me a poem"]
  refine ⟨h1.trans rfl, (h2 0).trans rfl, h3 (exampleLLM.topResponses "Tell me a joke") ?_⟩
  decide

/-- C7: the supplied material defines no entities or data structures beyond
notebook-displayed illustration: every class or function definition
occurring in a supplied file sits in a display-only Markdown cell, never
in an executable code cell. -/
theorem displayed_definitions_are_illustrative_only :
    (suppliedFiles.all (fun f => f.cells.all (fun c =>
      c.stmts.all (fun s => !s.definesImpl) || !c.isExecutable))) = true := by
  decide

/-- C9: when the agent is initialized with `return_intermediate_steps`,
the response of a successful run carries the extra key
"intermediate_steps", holding the (action, observation) pairs of the run —
exactly the tool invocations of the run's trace, one per invocation in
invocation order, each action recording the tool name, the tool input and
the model's reasoning log — while without the flag that key is absent. -/
theorem return_intermediate_steps_response (model : AgentModel)
    (tools : List Tool) (input : String) (fuel : Nat)
    (steps : List Step) (ans : String)
    (h : runAgent model tools input fuel [] = some (steps, ans)) :
    (∃ resp, agentCall true model tools input fuel = some resp ∧
       responseLookup resp "intermediate_steps" =
         some (ResponseValue.stepsVal steps) ∧
       responseLookup resp "output" = some (ResponseValue.text ans)) ∧
    steps = toolInvocations (runAgentTrace model tools input fuel []) ∧
    (∀ resp2, agentCall false model tools input fuel = some resp2 →
       responseLookup resp2 "intermediate_steps" = none) := by
  have hcall : agentCall true model tools input fuel =
      some (("input", ResponseValue.text input) ::
        ("output", ResponseValue.text ans) ::
        [("intermediate_steps", ResponseValue.stepsVal steps)]) := by
    simp [agentCall, h]
  have hcall2 : agentCall false model tools input fuel =
      some [("input", ResponseValue.text input),
        ("output", ResponseValue.text ans)] := by
    simp [agentCall, h]
  refine ⟨⟨_, hcall, ?_, ?_⟩, ?_, ?_⟩
  · simp [responseLookup]
  · simp [responseLookup]
  · simpa using runAgent_steps_toolInvocations model tools input fuel [] steps ans h
  · intro resp2 h2
    rw [hcall2] at h2
    cases h2
    simp [responseLookup]

/-- Witness for C9: the example run's returned steps are exactly the tool
invocations of its trace. -/
theorem return_intermediate_steps_response_witness :
    exampleSteps = toolInvocations (runAgentTrace exampleModel [exampleTool] "q" 3 []) :=
  (return_intermediate_steps_response exampleModel [exampleTool] "q" 3
    exampleSteps "28 years" (by decide)).2.1

/-- C10: no error-handling logic — no try/except block and no raise
statement — occurs anywhere in the supplied material, executable or
displayed. -/
theorem no_error_handling_logic :
    (suppliedFiles.all (fun f => f.cells.all (fun c =>
      c.stmts.all (fun s => !s.isErrorHandling)))) = true := by
  decide

end LangChainDocs
